import Mathlib

/-!
# Gaming Industry Tracking System — verification of the tracking-cycle core

Shallow embedding of the tracking-cycle orchestrator (`CompanyTracker.runTrackingCycle`,
two versions present in the repository), the deduplicators
(`HiringTracker.filterDuplicateHires`, `JobPostingTracker.filterDuplicateJobs`) and the
per-company fetch operations (`HiringTracker.trackCompany`,
`JobPostingTracker.trackCompany`), together with theorems settling the specification's
claims about them.

Conventions of the embedding:
* JavaScript strings are Lean `String`s; `toLowerCase()` is `lowerCase` below.
* A JS `Set` of keys is a `List String` queried with `List.contains` (extensionally
  equal for membership tests, which is the only operation the source performs).
* `async` functions that may reject are `Except String _`-valued; a JS
  `try { … } catch { … }` is a `match` on that `Except`.
* External collaborators (fetch adapters, the spreadsheet store) are parameters:
  a record of `Except`-valued functions describing the outcome of each awaited call.
* Wall-clock timestamps (`new Date().toISOString()`) are threaded as an opaque
  `String` parameter `ts`.
-/

namespace GamingTracker

/-- A hire record; identity fields `name` and `title` as used by
`HiringTracker.filterDuplicateHires`; `companyName` is attached by the orchestrator
(`{ ...hire, companyName: company.name }`). -/
structure Hire where
  name : String
  title : String
  companyName : String := ""
deriving DecidableEq, Repr

/-- A job-posting record; identity fields `title` and `location` as used by
`JobPostingTracker.filterDuplicateJobs`; `companyName` is attached by the orchestrator. -/
structure Job where
  title : String
  location : String
  companyName : String := ""
deriving DecidableEq, Repr

/-- JS `String.prototype.toLowerCase()`; written on the underlying character list
(character-wise lowering, extensionally `String.toLower`) so concrete instances
evaluate inside the kernel. -/
def lowerCase (s : String) : String := ⟨s.data.map Char.toLower⟩

/-- The normalized identity key of a hire:
`` `${hire.name}-${hire.title}`.toLowerCase() ``. -/
def hireKey (h : Hire) : String := lowerCase (h.name ++ "-" ++ h.title)

/-- The normalized identity key of a posting:
`` `${job.title}-${job.location}`.toLowerCase() ``. -/
def jobKey (j : Job) : String := lowerCase (j.title ++ "-" ++ j.location)

/-- `HiringTracker.filterDuplicateHires(newHires, existingHires)`: build the set of
normalized keys of `existingHires`, keep the new hires whose key is absent. -/
def filterDuplicateHires (newHires existingHires : List Hire) : List Hire :=
  let existingSet := existingHires.map hireKey
  newHires.filter (fun hire => !(existingSet.contains (hireKey hire)))

/-- `JobPostingTracker.filterDuplicateJobs(newJobs, existingJobs)`: build the set of
normalized keys of `existingJobs`, keep the new jobs whose key is absent. -/
def filterDuplicateJobs (newJobs existingJobs : List Job) : List Job :=
  let existingSet := existingJobs.map jobKey
  newJobs.filter (fun job => !(existingSet.contains (jobKey job)))

/-- A tracked company, as loaded by `GoogleSheetsService.getCompanies` and consumed
by `CompanyTracker.runTrackingCycle`: a free-text priority tag (absent fields model
JS `undefined`), two capability flags, and the source endpoints the job tracker
reads. -/
structure Company where
  name : String
  priority : Option String := none
  trackHiring : Bool := false
  trackJobs : Bool := false
  careersPageUrl : Option String := none
  linkedinUrl : Option String := none
  linkedinSlug : Option String := none
deriving DecidableEq, Repr

/-- The JS test `company.priority?.toLowerCase() === p` (optional chaining on a
possibly-missing tag). -/
def priorityIs (p : String) (c : Company) : Bool :=
  match c.priority with
  | some s => lowerCase s == p
  | none => false

/-- Visit order of the earlier `CompanyTracker.runTrackingCycle` (the version with
priority sorting): `[...high, ...medium, ...low]`, each a `filter` of the loaded
company list. -/
def sortedCompaniesPrio (companies : List Company) : List Company :=
  let priorityCompanies := companies.filter (priorityIs "high")
  let mediumCompanies := companies.filter (priorityIs "medium")
  let lowCompanies := companies.filter (priorityIs "low")
  priorityCompanies ++ mediumCompanies ++ lowCompanies

/-- Visit order of the current `CompanyTracker.runTrackingCycle`:
`this.companies.filter(c => c.trackHiring || c.trackJobs)` — despite the source
variable being named `sortedCompanies`, no priority reordering happens. -/
def sortedCompaniesCur (companies : List Company) : List Company :=
  companies.filter (fun c => c.trackHiring || c.trackJobs)

/-- Spec-side tier rank used to state priority ordering: High ↦ 0, Medium ↦ 1,
Low ↦ 2, anything else ↦ 3. -/
def tierRank (c : Company) : Nat :=
  if priorityIs "high" c then 0
  else if priorityIs "medium" c then 1
  else if priorityIs "low" c then 2
  else 3

/-- An entry of `CycleResult.errors`:
`results.errors.push({ company: company.name, error: error.message, timestamp })`. -/
structure CycleError where
  company : String
  error : String
  timestamp : String
deriving DecidableEq, Repr

/-- The aggregate returned by one `runTrackingCycle` invocation. -/
structure CycleResult where
  newHires : List Hire
  newJobs : List Job
  errors : List CycleError
deriving DecidableEq, Repr

/-- `{ newHires: [], newJobs: [], errors: [] }`. -/
def emptyCycleResult : CycleResult := ⟨[], [], []⟩

/-- Which fetch adapter an orchestrator call went to. -/
inductive FetchKind
  | hires
  | onboarding
  | jobs
deriving DecidableEq, Repr

/-- One fetch-adapter invocation observed during a cycle. -/
structure FetchCall where
  company : String
  kind : FetchKind
deriving DecidableEq, Repr

/-- One store-append invocation (`sheetsService.addHire` / `sheetsService.addJob`)
observed during a cycle. -/
inductive PersistCall
  | addHire (company : String) (h : Hire)
  | addJob (company : String) (j : Job)
deriving DecidableEq, Repr

/-- The three per-company fetch collaborators the orchestrator awaits
(`hiringTracker.trackCompany`, `onboardingTracker.trackNewOnboarding`,
`jobTracker.trackCompany`); each call either resolves to a record list or rejects
with an error message. -/
structure Adapters where
  hires : Company → Except String (List Hire)
  onboarding : Company → Except String (List Hire)
  jobs : Company → Except String (List Job)

/-- `{ ...hire, companyName: company.name }`. -/
def withCompanyHire (n : String) (h : Hire) : Hire := { h with companyName := n }

/-- `{ ...job, companyName: company.name }`. -/
def withCompanyJob (n : String) (j : Job) : Job := { j with companyName := n }

/-- What processing one company contributes to the cycle: deltas to the three
result lists, plus the observable fetch and store-append calls made on the way. -/
structure CompanyOutcome where
  newHires : List Hire
  newJobs : List Job
  errors : List CycleError
  fetches : List FetchCall
  persists : List PersistCall
deriving DecidableEq, Repr

def emptyOutcome : CompanyOutcome := ⟨[], [], [], [], []⟩

/-- Componentwise concatenation of two outcome deltas. -/
def CompanyOutcome.append (a b : CompanyOutcome) : CompanyOutcome :=
  ⟨a.newHires ++ b.newHires, a.newJobs ++ b.newJobs, a.errors ++ b.errors,
   a.fetches ++ b.fetches, a.persists ++ b.persists⟩

/-- `processNewHires(company, hires)` iterates the list and awaits
`sheetsService.addHire(company, hire)` for each record (notification and
per-record error swallowing left implicit: neither affects the cycle result). -/
def processNewHiresCalls (c : Company) (hs : List Hire) : List PersistCall :=
  hs.map (fun h => .addHire c.name h)

/-- `processNewJobs(company, jobs)` iterates the list and awaits
`sheetsService.addJob(company, job)` for each record. -/
def processNewJobsCalls (c : Company) (js : List Job) : List PersistCall :=
  js.map (fun j => .addJob c.name j)

/-- `if (newHires.length > 0) { results.newHires.push(...); await processNewHires }`:
record the fetched hires (tagged with the company name) and their persist calls. -/
def pushHires (c : Company) (hs : List Hire) (acc : CompanyOutcome) : CompanyOutcome :=
  if hs.length > 0 then
    { acc with
      newHires := acc.newHires ++ hs.map (withCompanyHire c.name),
      persists := acc.persists ++ processNewHiresCalls c hs }
  else acc

/-- `if (newJobs.length > 0) { results.newJobs.push(...); await processNewJobs }`. -/
def pushJobs (c : Company) (js : List Job) (acc : CompanyOutcome) : CompanyOutcome :=
  if js.length > 0 then
    { acc with
      newJobs := acc.newJobs ++ js.map (withCompanyJob c.name),
      persists := acc.persists ++ processNewJobsCalls c js }
  else acc

/-- The `if (company.trackJobs) { … }` step of the per-company loop body; it is
reached only when the earlier steps of the body did not throw (a thrown hire step
jumps to the per-company `catch`, skipping this step). -/
def jobsStep (A : Adapters) (ts : String) (c : Company) (acc : CompanyOutcome) :
    CompanyOutcome :=
  if c.trackJobs then
    match A.jobs c with
    | .error e =>
        { acc with
          errors := acc.errors ++ [⟨c.name, e, ts⟩],
          fetches := acc.fetches ++ [⟨c.name, .jobs⟩] }
    | .ok js => pushJobs c js { acc with fetches := acc.fetches ++ [⟨c.name, .jobs⟩] }
  else acc

/-- The body of the per-company loop of the current `runTrackingCycle`
(one `try { hires; onboarding; jobs } catch { errors.push }` per company):
pushes already made before a throw survive, and a throw skips the remaining
steps for this company only. -/
def processCompany (A : Adapters) (ts : String) (c : Company) : CompanyOutcome :=
  if c.trackHiring then
    match A.hires c with
    | .error e =>
        { emptyOutcome with
          errors := [⟨c.name, e, ts⟩], fetches := [⟨c.name, .hires⟩] }
    | .ok hs =>
      let acc1 := pushHires c hs { emptyOutcome with fetches := [⟨c.name, .hires⟩] }
      match A.onboarding c with
      | .error e =>
          { acc1 with
            errors := acc1.errors ++ [⟨c.name, e, ts⟩],
            fetches := acc1.fetches ++ [⟨c.name, .onboarding⟩] }
      | .ok os =>
        let acc2 := pushHires c os { acc1 with fetches := acc1.fetches ++ [⟨c.name, .onboarding⟩] }
        jobsStep A ts c acc2
  else
    jobsStep A ts c emptyOutcome

/-- The `for` loop of the current `runTrackingCycle` over the filtered company
list: per-company outcomes concatenate in visit order. -/
def runCompanies (A : Adapters) (ts : String) : List Company → CompanyOutcome
  | [] => emptyOutcome
  | c :: rest => (processCompany A ts c).append (runCompanies A ts rest)

/-- The orchestrator state visible to `runTrackingCycle`: the loaded company list
and the `isTracking` in-flight guard flag. -/
structure TrackerState where
  companies : List Company
  isTracking : Bool
deriving Repr

/-- Everything one `runTrackingCycle` invocation yields: the returned value (or
the propagated exception), and the fetch/persist calls made. -/
structure CycleRun where
  result : Except String CycleResult
  fetches : List FetchCall
  persists : List PersistCall
deriving Repr

/-- The current `CompanyTracker.runTrackingCycle`:
guard on `isTracking` (second trigger returns the empty result untouched);
otherwise set the flag and run
`try { if empty return; loop over filtered companies } finally { isTracking = false }`.
`fault` injects a rejection at an unhandled point inside the `try` (the code awaits
collaborators outside any inner `catch` there); the `finally` clears the flag on
that path too, while the exception propagates to the caller. -/
def runTrackingCycle (A : Adapters) (ts : String) (fault : Option String)
    (s : TrackerState) : CycleRun × TrackerState :=
  if s.isTracking then
    (⟨.ok emptyCycleResult, [], []⟩, s)
  else
    let body : Except String CompanyOutcome :=
      match fault with
      | some e => .error e
      | none =>
        if s.companies.length = 0 then .ok emptyOutcome
        else .ok (runCompanies A ts (sortedCompaniesCur s.companies))
    match body with
    | .error e => (⟨.error e, [], []⟩, { s with isTracking := false })
    | .ok o =>
        (⟨.ok ⟨o.newHires, o.newJobs, o.errors⟩, o.fetches, o.persists⟩,
         { s with isTracking := false })

/-- Adapters that always resolve with no records; used to instantiate witnesses. -/
def idleAdapters : Adapters :=
  ⟨fun _ => .ok [], fun _ => .ok [], fun _ => .ok []⟩

/-- A Low-priority company placed before a High-priority one in the loaded list. -/
def lowCo : Company := ⟨"LowCo", some "Low", true, false, none, none, none⟩

def highCo : Company := ⟨"HighCo", some "High", true, false, none, none, none⟩

/-- A company whose priority tag is not one of High/Medium/Low. -/
def urgentCo : Company := ⟨"UrgentCo", some "Urgent", true, false, none, none, none⟩

/-- A company with a recognized priority but both capability flags disabled. -/
def flaglessCo : Company := ⟨"FlaglessCo", some "High", false, false, none, none, none⟩

def coA : Company := ⟨"A", some "High", true, false, none, none, none⟩

def coB : Company := ⟨"B", some "Medium", true, false, none, none, none⟩

def coC : Company := ⟨"C", some "Low", true, false, none, none, none⟩

/-- Hire adapter that rejects exactly for company `"B"`. -/
def failBAdapters : Adapters :=
  ⟨fun co => if co.name = "B" then .error "boom" else .ok [⟨"Ann", "Dev", ""⟩],
   fun _ => .ok [], fun _ => .ok []⟩

/-- Substring search on character lists: does `needle` occur contiguously in the
list? -/
def containsSub (needle : List Char) : List Char → Bool
  | [] => needle.isPrefixOf []
  | c :: rest => needle.isPrefixOf (c :: rest) || containsSub needle rest

/-- JS `haystack.includes(needle)` on strings, written on the character lists so
concrete instances evaluate inside the kernel. -/
def jsIncludes (haystack needle : String) : Bool :=
  containsSub needle.data haystack.data

/-- `const problematicDomains = ['netent.com', 'evolution.com']` in
`JobPostingTracker.trackCompany`. -/
def problematicDomains : List String := ["netent.com", "evolution.com"]

/-- `company.careersPageUrl && problematicDomains.some(d => company.careersPageUrl.includes(d))`. -/
def hasProblematicDomain (c : Company) : Bool :=
  match c.careersPageUrl with
  | some url => problematicDomains.any (fun d => jsIncludes url d)
  | none => false

/-- Outcomes of the calls `JobPostingTracker.trackCompany` awaits:
browser launch, the two scraping strategies (each raced against a timeout), and
the store's recent-history read `getExistingJobs(company, 30)`. -/
structure JobFetchEnv where
  browser : Except String Unit
  careerJobs : Except String (List Job)
  linkedinJobs : Except String (List Job)
  existingJobs : Except String (List Job)

/-- `JobPostingTracker.trackCompany(company)`: skip if the flag is off or the
domain is problematic; scrape (each strategy's rejection swallowed by its inner
`catch`); read the 30-day window; deduplicate; return survivors. Every failure
outside the inner catches hits the outer `catch { return [] }`, so the call
always resolves. -/
def jobTrackerTrackCompany (env : JobFetchEnv) (c : Company) :
    Except String (List Job) :=
  if !c.trackJobs then .ok []
  else if hasProblematicDomain c then .ok []
  else
    match env.browser with
    | .error _ => .ok []
    | .ok _ =>
      let fromCareers :=
        match c.careersPageUrl, env.careerJobs with
        | some _, .ok js => js
        | some _, .error _ => []
        | none, _ => []
      let fromLinkedin :=
        match c.linkedinUrl, c.linkedinSlug, env.linkedinJobs with
        | some _, some _, .ok js => js
        | some _, some _, .error _ => []
        | _, _, _ => []
      match env.existingJobs with
      | .error _ => .ok []
      | .ok existing => .ok (filterDuplicateJobs (fromCareers ++ fromLinkedin) existing)

/-- Outcomes of the calls `HiringTracker.trackCompany` awaits:
`searchNewHires(company, since)` and the store's recent-history read
`getExistingHires(company, 30)`. -/
structure HireFetchEnv where
  searchedHires : Except String (List Hire)
  existingHires : Except String (List Hire)

/-- `HiringTracker.trackCompany(company)`: skip if the flag is off; search; read
the 30-day window; deduplicate; return survivors. Any rejection hits the
`catch { return [] }`, so the call always resolves. -/
def hiringTrackerTrackCompany (env : HireFetchEnv) (c : Company) :
    Except String (List Hire) :=
  if !c.trackHiring then .ok []
  else
    match env.searchedHires with
    | .error _ => .ok []
    | .ok newHires =>
      match env.existingHires with
      | .error _ => .ok []
      | .ok existing => .ok (filterDuplicateHires newHires existing)

/-- Store state for the C7 witness: the recent window already holds a posting
`("Engineer", "Remote")`; the careers page yields a fresh `("Dev", "Malta")`. -/
def jenvW : Company → JobFetchEnv := fun _ =>
  ⟨.ok (), .ok [⟨"Dev", "Malta", ""⟩], .ok [], .ok [⟨"Engineer", "Remote", ""⟩]⟩

def henvW : Company → HireFetchEnv := fun _ => ⟨.ok [], .ok []⟩

def evoCo : Company :=
  ⟨"Evo", some "High", false, true, some "https://example.com/careers", none, none⟩

/-- Adapters of the C7 witness: exactly the two concrete trackers. -/
def dedupAdapters : Adapters :=
  ⟨fun c => hiringTrackerTrackCompany (henvW c) c,
   fun _ => .ok [],
   fun c => jobTrackerTrackCompany (jenvW c) c⟩

/-- Everything is down for the C10 witness: no API keys, browser launch fails,
scrapes time out, the store rejects. -/
def downEnvH : HireFetchEnv := ⟨.error "No People Data Labs API keys configured",
  .error "sheets down"⟩

def downEnvJ : JobFetchEnv :=
  ⟨.error "browser launch failed", .error "Timeout", .error "Timeout",
   .error "sheets down"⟩

def downAdapters : Adapters :=
  ⟨fun c => hiringTrackerTrackCompany downEnvH c,
   fun _ => .ok [],
   fun c => jobTrackerTrackCompany downEnvJ c⟩

def betssonCo : Company := ⟨"Betsson", some "High", true, true, none, none, none⟩

example :
    filterDuplicateJobs [⟨"Engineer", "Remote", ""⟩] [⟨"Engineer", "Remote", ""⟩] = [] := by
  decide

example :
    filterDuplicateJobs [⟨"Engineer", "Remote", ""⟩] [] = [⟨"Engineer", "Remote", ""⟩] := by
  decide

example :
    filterDuplicateHires [⟨"Ann", "Dev", ""⟩, ⟨"ANN", "dev", ""⟩] [] =
      [⟨"Ann", "Dev", ""⟩, ⟨"ANN", "dev", ""⟩] := by
  decide

/-- C8: the deduplicator's algebraic identities: `dedupe(X, X) = []` (every new
record whose own normalized key appears in the existing set is removed),
`dedupe(X, []) = X` (with no existing records all records survive in order), and
`dedupe([], X) = []` — for both `filterDuplicateJobs` and `filterDuplicateHires`. -/
theorem dedupe_algebraic_identities (X : List Job) (Y : List Hire) :
    filterDuplicateJobs X X = [] ∧ filterDuplicateJobs X [] = X ∧
    (∀ Z : List Job, filterDuplicateJobs [] Z = []) ∧
    filterDuplicateHires Y Y = [] ∧ filterDuplicateHires Y [] = Y ∧
    (∀ W : List Hire, filterDuplicateHires [] W = []) := by
  refine ⟨?_, ?_, fun Z => rfl, ?_, ?_, fun W => rfl⟩
  · rw [filterDuplicateJobs, List.filter_eq_nil_iff]
    intro j hj
    simp [List.mem_map_of_mem jobKey hj]
  · rw [filterDuplicateJobs, List.filter_eq_self]
    intro j _
    simp
  · rw [filterDuplicateHires, List.filter_eq_nil_iff]
    intro h hh
    simp [List.mem_map_of_mem hireKey hh]
  · rw [filterDuplicateHires, List.filter_eq_self]
    intro h _
    simp

/-- C9: the deduplicator filters only against the existing records, never the new
batch against itself: a new record whose normalized key is absent from the
existing records keeps its full multiplicity in the output, so two new records
sharing a key (absent from the existing set) both survive. -/
theorem dedupe_keeps_intra_batch_ties
    (newJobs existingJobs : List Job) (j : Job)
    (newHires existingHires : List Hire) (h : Hire)
    (hj : jobKey j ∉ existingJobs.map jobKey)
    (hh : hireKey h ∉ existingHires.map hireKey) :
    (filterDuplicateJobs newJobs existingJobs).count j = newJobs.count j ∧
    (filterDuplicateHires newHires existingHires).count h = newHires.count h := by
  constructor
  · rw [filterDuplicateJobs]
    exact List.count_filter (by simp [hj])
  · rw [filterDuplicateHires]
    exact List.count_filter (by simp [hh])

/-- Witness for C9: two new postings with the same normalized key (`"dev-remote"`)
and an empty existing window both survive deduplication. -/
theorem dedupe_keeps_intra_batch_ties_witness :
    (filterDuplicateJobs [⟨"Dev", "Remote", ""⟩, ⟨"Dev", "Remote", ""⟩] []).count
        ⟨"Dev", "Remote", ""⟩ = 2 := by
  have := dedupe_keeps_intra_batch_ties
    [⟨"Dev", "Remote", ""⟩, ⟨"Dev", "Remote", ""⟩] [] ⟨"Dev", "Remote", ""⟩
    [] [] ⟨"Ann", "Dev", ""⟩ (by decide) (by decide)
  rw [this.1]
  decide

/-- C1: a trigger of `runTrackingCycle` while the cycle guard `isTracking` is set
runs no fetch adapter, appends nothing to the store, returns the empty result
`{ newHires: [], newJobs: [], errors: [] }`, and leaves the state untouched —
so at most one cycle executes at a time. -/
theorem guarded_cycle_is_noop (A : Adapters) (ts : String) (fault : Option String)
    (s : TrackerState) (h : s.isTracking = true) :
    runTrackingCycle A ts fault s = (⟨.ok emptyCycleResult, [], []⟩, s) := by
  simp [runTrackingCycle, h]

/-- Witness for C1 at a concrete in-flight state. -/
theorem guarded_cycle_is_noop_witness :
    runTrackingCycle idleAdapters "2024-12-01T00:00:00Z" none
        ⟨[⟨"Playtech", some "High", true, true, none, none, none⟩], true⟩ =
      (⟨.ok emptyCycleResult, [], []⟩,
       ⟨[⟨"Playtech", some "High", true, true, none, none, none⟩], true⟩) :=
  guarded_cycle_is_noop idleAdapters "2024-12-01T00:00:00Z" none
    ⟨[⟨"Playtech", some "High", true, true, none, none, none⟩], true⟩ rfl

/-- C2: a `runTrackingCycle` call that acquires the guard leaves `isTracking`
false when it terminates, on every exit path — normal completion, the early
return on an empty company list, and a propagating exception from inside the
cycle body (which the caller still observes as an error). -/
theorem guard_released_on_every_exit (A : Adapters) (ts : String)
    (fault : Option String) (s : TrackerState) (h : s.isTracking = false) :
    ((runTrackingCycle A ts fault s).2).isTracking = false ∧
    (∀ e, fault = some e → (runTrackingCycle A ts fault s).1.result = .error e) := by
  cases fault with
  | none =>
    constructor
    · by_cases hc : s.companies.length = 0 <;> simp [runTrackingCycle, h, hc]
    · intro e he
      exact absurd he (by simp)
  | some e' =>
    constructor
    · simp [runTrackingCycle, h]
    · intro e he
      cases he
      simp [runTrackingCycle, h]

/-- Witness for C2: a cycle aborted by an exception from inside the body still
clears the guard, and the exception reaches the caller. -/
theorem guard_released_on_every_exit_witness :
    ((runTrackingCycle idleAdapters "2024-12-01T00:00:00Z" (some "sheets down")
        ⟨[⟨"Entain", some "Low", true, false, none, none, none⟩], false⟩).2).isTracking
        = false ∧
    (runTrackingCycle idleAdapters "2024-12-01T00:00:00Z" (some "sheets down")
        ⟨[⟨"Entain", some "Low", true, false, none, none, none⟩], false⟩).1.result
      = .error "sheets down" := by
  have h := guard_released_on_every_exit idleAdapters "2024-12-01T00:00:00Z"
    (some "sheets down")
    ⟨[⟨"Entain", some "Low", true, false, none, none, none⟩], false⟩ rfl
  exact ⟨h.1, h.2 "sheets down" rfl⟩

/-- C3 (code bug): the current `runTrackingCycle` does not reorder by priority —
on the loaded list `[LowCo(Low), HighCo(High)]` it visits (and fetches for) LowCo
before HighCo, i.e. the visit order is the input order, not the 3-tier priority
order; the earlier version's sorting (`sortedCompaniesPrio`) would have put
HighCo first, as the claim states. -/
theorem cycle_visits_input_order_not_priority :
    sortedCompaniesCur [lowCo, highCo] = [lowCo, highCo] ∧
    (runTrackingCycle idleAdapters "2024-12-01T00:00:00Z" none
        ⟨[lowCo, highCo], false⟩).1.fetches.map FetchCall.company =
      ["LowCo", "LowCo", "HighCo", "HighCo"] ∧
    sortedCompaniesPrio [lowCo, highCo] = [highCo, lowCo] := by
  refine ⟨by decide, ?_, by decide⟩
  decide

/-- Counterexample for C4: the processed sequence does not contain every entity of
the input. The priority-sorting `runTrackingCycle` drops an entity whose tag is
`"Urgent"` (not treated as lowest tier — removed entirely), and the current
version drops an entity with both capability flags false. -/
theorem unrecognized_priority_dropped_counterexample :
    sortedCompaniesPrio [urgentCo] = [] ∧ urgentCo ∈ [urgentCo] ∧
    sortedCompaniesCur [flaglessCo] = [] := by
  refine ⟨by decide, by decide, by decide⟩

/-- C4 amended: membership in the visit sequence, for both versions. The current
`runTrackingCycle` visits exactly the entities with at least one capability flag
(so an unrecognized or missing priority tag never causes a drop there), while the
earlier priority-sorting version visits exactly the entities whose tag lower-cases
to `"high"`, `"medium"` or `"low"`, dropping the rest. -/
theorem visit_sequence_membership (cs : List Company) (c : Company) :
    (c ∈ sortedCompaniesCur cs ↔ c ∈ cs ∧ (c.trackHiring || c.trackJobs) = true) ∧
    (c ∈ sortedCompaniesPrio cs ↔
      c ∈ cs ∧ (priorityIs "high" c = true ∨ priorityIs "medium" c = true ∨
        priorityIs "low" c = true)) := by
  constructor
  · simp [sortedCompaniesCur, List.mem_filter]
  · simp [sortedCompaniesPrio, List.mem_append, List.mem_filter]
    tauto

/-- The guarded push is extensionally an unconditional append: when the fetched
list is empty, appending its (empty) mapped records and persist calls is a no-op. -/
theorem pushHires_eq (c : Company) (hs : List Hire) (acc : CompanyOutcome) :
    pushHires c hs acc =
      { acc with
        newHires := acc.newHires ++ hs.map (withCompanyHire c.name),
        persists := acc.persists ++ processNewHiresCalls c hs } := by
  rcases acc with ⟨nh, nj, er, fe, pe⟩
  unfold pushHires
  split
  · rfl
  · next hlen =>
      have hnil : hs = [] := by
        cases hs with
        | nil => rfl
        | cons x xs => exact absurd (by simp) hlen
      subst hnil
      simp [processNewHiresCalls]

theorem pushJobs_eq (c : Company) (js : List Job) (acc : CompanyOutcome) :
    pushJobs c js acc =
      { acc with
        newJobs := acc.newJobs ++ js.map (withCompanyJob c.name),
        persists := acc.persists ++ processNewJobsCalls c js } := by
  rcases acc with ⟨nh, nj, er, fe, pe⟩
  unfold pushJobs
  split
  · rfl
  · next hlen =>
      have hnil : js = [] := by
        cases js with
        | nil => rfl
        | cons x xs => exact absurd (by simp) hlen
      subst hnil
      simp [processNewJobsCalls]

/-- C5 amended: for an entity with both capability flags enabled whose hire-fetch
throws, the per-company `catch` appends the error entry
`{entity, message, timestamp}`, but the posting-fetch step of that same entity is
skipped — the single try/catch wraps both steps, so the throw aborts the rest of
that entity's processing (subsequent entities are unaffected). -/
theorem hire_fetch_throw_skips_posting_fetch (A : Adapters) (ts : String)
    (c : Company) (e : String) (hth : c.trackHiring = true)
    (herr : A.hires c = .error e) :
    processCompany A ts c =
      { emptyOutcome with
        errors := [⟨c.name, e, ts⟩], fetches := [⟨c.name, FetchKind.hires⟩] } ∧
    FetchCall.mk c.name FetchKind.jobs ∉ (processCompany A ts c).fetches := by
  have hpc : processCompany A ts c =
      { emptyOutcome with
        errors := [⟨c.name, e, ts⟩], fetches := [⟨c.name, FetchKind.hires⟩] } := by
    simp [processCompany, hth, herr]
  refine ⟨hpc, ?_⟩
  rw [hpc]
  simp [emptyOutcome]

/-- Witness for C5 amended, at a company with both flags set whose hire adapter
rejects. -/
theorem hire_fetch_throw_skips_posting_fetch_witness :
    processCompany
        ⟨fun _ => .error "PDL 500", fun _ => .ok [], fun _ => .ok [⟨"Dev", "Malta", ""⟩]⟩
        "2024-12-01T00:00:00Z" ⟨"BothCo", some "High", true, true, none, none, none⟩ =
      { emptyOutcome with
        errors := [⟨"BothCo", "PDL 500", "2024-12-01T00:00:00Z"⟩],
        fetches := [⟨"BothCo", FetchKind.hires⟩] } ∧
    FetchCall.mk "BothCo" FetchKind.jobs ∉
      (processCompany
        ⟨fun _ => .error "PDL 500", fun _ => .ok [], fun _ => .ok [⟨"Dev", "Malta", ""⟩]⟩
        "2024-12-01T00:00:00Z" ⟨"BothCo", some "High", true, true, none, none, none⟩).fetches :=
  hire_fetch_throw_skips_posting_fetch _ _ _ _ rfl rfl

/-- Counterexample for C5 as stated: a full cycle over one company with both
capability flags, whose hire-fetch throws `"PDL 500"` while its posting-fetch
would succeed: the error entry is appended, but the posting-fetch adapter is
never invoked (the only fetch call of the cycle is the hire one), and no job is
discovered. -/
theorem hire_fetch_throw_counterexample :
    (runTrackingCycle
        ⟨fun _ => .error "PDL 500", fun _ => .ok [], fun _ => .ok [⟨"Dev", "Malta", ""⟩]⟩
        "2024-12-01T00:00:00Z" none
        ⟨[⟨"BothCo", some "High", true, true, none, none, none⟩], false⟩).1.fetches =
      [⟨"BothCo", FetchKind.hires⟩] ∧
    (runTrackingCycle
        ⟨fun _ => .error "PDL 500", fun _ => .ok [], fun _ => .ok [⟨"Dev", "Malta", ""⟩]⟩
        "2024-12-01T00:00:00Z" none
        ⟨[⟨"BothCo", some "High", true, true, none, none, none⟩], false⟩).1.result =
      .ok ⟨[], [], [⟨"BothCo", "PDL 500", "2024-12-01T00:00:00Z"⟩]⟩ := by
  constructor <;> rfl

/-- C6: a fetch failure for one entity does not stop the cycle. For any three
hire-tracked companies visited in order `[a, b, c]` where `b`'s hire-fetch
rejects with `e` and the others resolve, the cycle result still carries the
discoveries of `a` (before the failure) and of `c` (after it), and `b` appears in
`errors` with its identifier, the error message and the timestamp. -/
theorem fetch_failure_does_not_stop_cycle (A : Adapters) (ts : String)
    (a b c : Company) (ha hc : List Hire) (e : String)
    (hta : a.trackHiring = true) (htb : b.trackHiring = true)
    (htc : c.trackHiring = true)
    (hja : a.trackJobs = false) (hjc : c.trackJobs = false)
    (hA : A.hires a = .ok ha) (hB : A.hires b = .error e) (hC : A.hires c = .ok hc)
    (hoa : A.onboarding a = .ok []) (hoc : A.onboarding c = .ok []) :
    (runTrackingCycle A ts none ⟨[a, b, c], false⟩).1.result =
      .ok ⟨ha.map (withCompanyHire a.name) ++ hc.map (withCompanyHire c.name), [],
           [⟨b.name, e, ts⟩]⟩ := by
  simp [runTrackingCycle, sortedCompaniesCur, runCompanies, processCompany,
        jobsStep, pushHires_eq, hta, htb, htc, hja, hjc, hA, hB, hC, hoa, hoc,
        CompanyOutcome.append, emptyOutcome, processNewHiresCalls]

/-- Witness for C6: with `B`'s hire adapter rejecting, `A`'s and `C`'s discoveries
are still in the result and `B`'s failure is recorded. -/
theorem fetch_failure_does_not_stop_cycle_witness :
    (runTrackingCycle failBAdapters "2024-12-01T00:00:00Z" none
        ⟨[coA, coB, coC], false⟩).1.result =
      .ok ⟨[⟨"Ann", "Dev", "A"⟩, ⟨"Ann", "Dev", "C"⟩], [],
           [⟨"B", "boom", "2024-12-01T00:00:00Z"⟩]⟩ := by
  have h := fetch_failure_does_not_stop_cycle failBAdapters "2024-12-01T00:00:00Z"
    coA coB coC [⟨"Ann", "Dev", ""⟩] [⟨"Ann", "Dev", ""⟩] "boom"
    rfl rfl rfl rfl rfl rfl rfl rfl rfl rfl
  rw [h]
  rfl

/-- A record surviving `filterDuplicateJobs` has a key absent from the existing
window. -/
theorem key_not_mem_of_mem_filterDuplicateJobs {raw ex : List Job} {j : Job}
    (hmem : j ∈ filterDuplicateJobs raw ex) : jobKey j ∉ ex.map jobKey := by
  rw [filterDuplicateJobs] at hmem
  have h := (List.mem_filter.mp hmem).2
  simpa using h

theorem key_not_mem_of_mem_filterDuplicateHires {raw ex : List Hire} {h : Hire}
    (hmem : h ∈ filterDuplicateHires raw ex) : hireKey h ∉ ex.map hireKey := by
  rw [filterDuplicateHires] at hmem
  have h2 := (List.mem_filter.mp hmem).2
  simpa using h2

/-- A job in a list the job tracker resolves with never collides with the
existing window the tracker deduplicated against. -/
theorem jobTracker_output_key_fresh {env : JobFetchEnv} {c : Company}
    {ex js : List Job} {j : Job} (hex : env.existingJobs = .ok ex)
    (hok : jobTrackerTrackCompany env c = .ok js) (hj : j ∈ js) :
    jobKey j ∉ ex.map jobKey := by
  unfold jobTrackerTrackCompany at hok
  by_cases htj : c.trackJobs
  · simp [htj] at hok
    by_cases hpd : hasProblematicDomain c
    · rw [if_pos hpd] at hok
      cases hok
      exact absurd hj (by simp)
    · rw [if_neg hpd] at hok
      cases hbr : env.browser with
      | error e =>
        rw [hbr] at hok
        cases hok
        exact absurd hj (by simp)
      | ok u =>
        rw [hbr, hex] at hok
        cases hok
        exact key_not_mem_of_mem_filterDuplicateJobs hj
  · simp [htj] at hok
    cases hok
    exact absurd hj (by simp)

theorem hiringTracker_output_key_fresh {env : HireFetchEnv} {c : Company}
    {ex hs : List Hire} {h : Hire} (hex : env.existingHires = .ok ex)
    (hok : hiringTrackerTrackCompany env c = .ok hs) (hh : h ∈ hs) :
    hireKey h ∉ ex.map hireKey := by
  unfold hiringTrackerTrackCompany at hok
  by_cases hth : c.trackHiring
  · simp [hth] at hok
    cases hsh : env.searchedHires with
    | error e =>
      rw [hsh] at hok
      cases hok
      exact absurd hh (by simp)
    | ok raw =>
      rw [hsh, hex] at hok
      cases hok
      exact key_not_mem_of_mem_filterDuplicateHires hh
  · simp [hth] at hok
    cases hok
    exact absurd hh (by simp)

/-- Every `addJob` call one company's processing makes carries that company's
name and a job taken from its posting-fetch adapter's resolved output. -/
theorem addJob_origin_company {A : Adapters} {ts : String} {c : Company}
    {n : String} {j : Job}
    (hmem : PersistCall.addJob n j ∈ (processCompany A ts c).persists) :
    c.name = n ∧ ∃ js, A.jobs c = .ok js ∧ j ∈ js := by
  unfold processCompany jobsStep at hmem
  by_cases hth : c.trackHiring
  · simp only [hth, if_true] at hmem
    cases hA : A.hires c with
    | error e =>
      rw [hA] at hmem
      exact absurd hmem (by simp [emptyOutcome])
    | ok hs =>
      rw [hA] at hmem
      cases hO : A.onboarding c with
      | error e =>
        rw [hO] at hmem
        exact absurd hmem
          (by simp [pushHires_eq, emptyOutcome, processNewHiresCalls])
      | ok os =>
        rw [hO] at hmem
        by_cases htj : c.trackJobs
        · simp only [htj, if_true] at hmem
          cases hJ : A.jobs c with
          | error e =>
            rw [hJ] at hmem
            exact absurd hmem
              (by simp [pushHires_eq, emptyOutcome, processNewHiresCalls])
          | ok js =>
            rw [hJ] at hmem
            simp [pushHires_eq, pushJobs_eq, emptyOutcome, processNewHiresCalls,
                  processNewJobsCalls] at hmem
            exact ⟨hmem.2, js, rfl, hmem.1⟩
        · simp only [htj, if_false] at hmem
          exact absurd hmem
            (by simp [pushHires_eq, emptyOutcome, processNewHiresCalls])
  · simp only [hth, if_false] at hmem
    by_cases htj : c.trackJobs
    · simp only [htj, if_true] at hmem
      cases hJ : A.jobs c with
      | error e =>
        rw [hJ] at hmem
        exact absurd hmem (by simp [emptyOutcome])
      | ok js =>
        rw [hJ] at hmem
        simp [pushJobs_eq, emptyOutcome, processNewJobsCalls] at hmem
        exact ⟨hmem.2, js, rfl, hmem.1⟩
    · simp only [htj, if_false] at hmem
      exact absurd hmem (by simp [emptyOutcome])

/-- Every `addHire` call one company's processing makes carries that company's
name and a hire taken from its hire-fetch or onboarding adapter's resolved
output. -/
theorem addHire_origin_company {A : Adapters} {ts : String} {c : Company}
    {n : String} {h : Hire}
    (hmem : PersistCall.addHire n h ∈ (processCompany A ts c).persists) :
    c.name = n ∧ ((∃ hs, A.hires c = .ok hs ∧ h ∈ hs) ∨
      (∃ os, A.onboarding c = .ok os ∧ h ∈ os)) := by
  unfold processCompany jobsStep at hmem
  by_cases hth : c.trackHiring
  · simp only [hth, if_true] at hmem
    cases hA : A.hires c with
    | error e =>
      rw [hA] at hmem
      exact absurd hmem (by simp [emptyOutcome])
    | ok hs =>
      rw [hA] at hmem
      cases hO : A.onboarding c with
      | error e =>
        rw [hO] at hmem
        simp [pushHires_eq, emptyOutcome, processNewHiresCalls] at hmem
        exact ⟨hmem.2, Or.inl ⟨hs, rfl, hmem.1⟩⟩
      | ok os =>
        rw [hO] at hmem
        by_cases htj : c.trackJobs
        · simp only [htj, if_true] at hmem
          cases hJ : A.jobs c with
          | error e =>
            rw [hJ] at hmem
            simp [pushHires_eq, emptyOutcome, processNewHiresCalls] at hmem
            rcases hmem with ⟨hin, hn⟩ | ⟨hin, hn⟩
            · exact ⟨hn, Or.inl ⟨hs, rfl, hin⟩⟩
            · exact ⟨hn, Or.inr ⟨os, rfl, hin⟩⟩
          | ok js =>
            rw [hJ] at hmem
            simp [pushHires_eq, pushJobs_eq, emptyOutcome, processNewHiresCalls,
                  processNewJobsCalls] at hmem
            rcases hmem with ⟨hin, hn⟩ | ⟨hin, hn⟩
            · exact ⟨hn, Or.inl ⟨hs, rfl, hin⟩⟩
            · exact ⟨hn, Or.inr ⟨os, rfl, hin⟩⟩
        · simp only [htj, if_false] at hmem
          simp [pushHires_eq, emptyOutcome, processNewHiresCalls] at hmem
          rcases hmem with ⟨hin, hn⟩ | ⟨hin, hn⟩
          · exact ⟨hn, Or.inl ⟨hs, rfl, hin⟩⟩
          · exact ⟨hn, Or.inr ⟨os, rfl, hin⟩⟩
  · simp only [hth, if_false] at hmem
    by_cases htj : c.trackJobs
    · simp only [htj, if_true] at hmem
      cases hJ : A.jobs c with
      | error e =>
        rw [hJ] at hmem
        exact absurd hmem (by simp [emptyOutcome])
      | ok js =>
        rw [hJ] at hmem
        exact absurd hmem (by simp [pushJobs_eq, emptyOutcome, processNewJobsCalls])
    · simp only [htj, if_false] at hmem
      exact absurd hmem (by simp [emptyOutcome])

/-- Persist-call origin over the whole company loop: an `addJob` observed during
`runCompanies` originates from the posting-fetch output of some visited company. -/
theorem addJob_origin_loop {A : Adapters} {ts : String} {n : String} {j : Job} :
    ∀ {cs : List Company},
      PersistCall.addJob n j ∈ (runCompanies A ts cs).persists →
      ∃ c, c ∈ cs ∧ c.name = n ∧ ∃ js, A.jobs c = .ok js ∧ j ∈ js := by
  intro cs
  induction cs with
  | nil => intro hmem; exact absurd hmem (by simp [runCompanies, emptyOutcome])
  | cons c rest ih =>
    intro hmem
    rw [runCompanies] at hmem
    rcases List.mem_append.mp hmem with hmem | hmem
    · obtain ⟨hn, js, hJ, hj⟩ := addJob_origin_company hmem
      exact ⟨c, by simp, hn, js, hJ, hj⟩
    · obtain ⟨c', hc', hrest⟩ := ih hmem
      exact ⟨c', by simp [hc'], hrest⟩

theorem addHire_origin_loop {A : Adapters} {ts : String} {n : String} {h : Hire} :
    ∀ {cs : List Company},
      PersistCall.addHire n h ∈ (runCompanies A ts cs).persists →
      ∃ c, c ∈ cs ∧ c.name = n ∧ ((∃ hs, A.hires c = .ok hs ∧ h ∈ hs) ∨
        (∃ os, A.onboarding c = .ok os ∧ h ∈ os)) := by
  intro cs
  induction cs with
  | nil => intro hmem; exact absurd hmem (by simp [runCompanies, emptyOutcome])
  | cons c rest ih =>
    intro hmem
    rw [runCompanies] at hmem
    rcases List.mem_append.mp hmem with hmem | hmem
    · obtain ⟨hn, hsrc⟩ := addHire_origin_company hmem
      exact ⟨c, by simp, hn, hsrc⟩
    · obtain ⟨c', hc', hrest⟩ := ih hmem
      exact ⟨c', by simp [hc'], hrest⟩

theorem mem_of_mem_sortedCompaniesCur {c : Company} {cs : List Company}
    (hc : c ∈ sortedCompaniesCur cs) : c ∈ cs :=
  (List.mem_filter.mp hc).1

/-- A cycle's persist-call trace is empty (guarded call, injected fault, or empty
company list) or is the trace of the company loop. -/
theorem cycle_persists_cases (A : Adapters) (ts : String) (fault : Option String)
    (s : TrackerState) :
    (runTrackingCycle A ts fault s).1.persists = [] ∨
    (runTrackingCycle A ts fault s).1.persists =
      (runCompanies A ts (sortedCompaniesCur s.companies)).persists := by
  unfold runTrackingCycle
  by_cases hg : s.isTracking
  · simp [hg]
  · cases fault with
    | some e => simp [hg]
    | none =>
      by_cases hc : s.companies.length = 0 <;> simp [hg, hc, emptyOutcome]

/-- C7: no duplicate persistence. When the cycle's fetch adapters are the two
concrete trackers (hire fetch deduplicating against the store's recent hires,
posting fetch deduplicating against the store's recent jobs), every
`addJob`/`addHire` call the cycle makes is for a record of some loaded company
whose normalized identity key does not occur (case-insensitively) in that
company's recent-history window — a colliding record is filtered out before
persistence and its identity is never appended. -/
theorem no_duplicate_persistence
    (jenv : Company → JobFetchEnv) (jex : Company → List Job)
    (henv : Company → HireFetchEnv) (hex : Company → List Hire)
    (A : Adapters) (ts : String) (fault : Option String) (s : TrackerState)
    (hje : ∀ c, (jenv c).existingJobs = .ok (jex c))
    (hhe : ∀ c, (henv c).existingHires = .ok (hex c))
    (hjA : ∀ c, A.jobs c = jobTrackerTrackCompany (jenv c) c)
    (hhA : ∀ c, A.hires c = hiringTrackerTrackCompany (henv c) c)
    (hoA : ∀ c, A.onboarding c = .ok []) :
    (∀ n j, PersistCall.addJob n j ∈ (runTrackingCycle A ts fault s).1.persists →
      ∃ c, c ∈ s.companies ∧ c.name = n ∧ jobKey j ∉ (jex c).map jobKey) ∧
    (∀ n h, PersistCall.addHire n h ∈ (runTrackingCycle A ts fault s).1.persists →
      ∃ c, c ∈ s.companies ∧ c.name = n ∧ hireKey h ∉ (hex c).map hireKey) := by
  rcases cycle_persists_cases A ts fault s with hp | hp
  · rw [hp]
    exact ⟨fun n j hmem => absurd hmem (by simp),
           fun n h hmem => absurd hmem (by simp)⟩
  · rw [hp]
    constructor
    · intro n j hmem
      obtain ⟨c, hcmem, hn, js, hJ, hj⟩ := addJob_origin_loop hmem
      rw [hjA c] at hJ
      exact ⟨c, mem_of_mem_sortedCompaniesCur hcmem, hn,
             jobTracker_output_key_fresh (hje c) hJ hj⟩
    · intro n h hmem
      obtain ⟨c, hcmem, hn, hsrc⟩ := addHire_origin_loop hmem
      rcases hsrc with ⟨hs, hH, hhs⟩ | ⟨os, hO, hos⟩
      · rw [hhA c] at hH
        exact ⟨c, mem_of_mem_sortedCompaniesCur hcmem, hn,
               hiringTracker_output_key_fresh (hhe c) hH hhs⟩
      · rw [hoA c] at hO
        cases hO
        exact absurd hos (by simp)

/-- Witness for C7: in a concrete cycle over one job-tracked company, the
persisted posting `("Dev", "Malta")` is certified fresh with respect to that
company's recent-history window. -/
theorem no_duplicate_persistence_witness :
    PersistCall.addJob "Evo" ⟨"Dev", "Malta", ""⟩ ∈
      (runTrackingCycle dedupAdapters "2024-12-01T00:00:00Z" none
        ⟨[evoCo], false⟩).1.persists ∧
    jobKey ⟨"Dev", "Malta", ""⟩ ∉
      ([⟨"Engineer", "Remote", ""⟩] : List Job).map jobKey := by
  have hmem : PersistCall.addJob "Evo" ⟨"Dev", "Malta", ""⟩ ∈
      (runTrackingCycle dedupAdapters "2024-12-01T00:00:00Z" none
        ⟨[evoCo], false⟩).1.persists := by decide
  obtain ⟨c, hc, hn, hkey⟩ := (no_duplicate_persistence jenvW
    (fun _ => [⟨"Engineer", "Remote", ""⟩]) henvW (fun _ => []) dedupAdapters
    "2024-12-01T00:00:00Z" none ⟨[evoCo], false⟩
    (fun _ => rfl) (fun _ => rfl) (fun _ => rfl) (fun _ => rfl) (fun _ => rfl)).1
    "Evo" ⟨"Dev", "Malta", ""⟩ hmem
  exact ⟨hmem, hkey⟩

theorem processCompany_errors_nil (A : Adapters) (ts : String) (c : Company)
    (hH : ∀ x, ∃ l, A.hires x = .ok l) (hO : ∀ x, ∃ l, A.onboarding x = .ok l)
    (hJ : ∀ x, ∃ l, A.jobs x = .ok l) :
    (processCompany A ts c).errors = [] := by
  obtain ⟨lh, eh⟩ := hH c
  obtain ⟨lo, eo⟩ := hO c
  obtain ⟨lj, ej⟩ := hJ c
  by_cases hth : c.trackHiring <;> by_cases htj : c.trackJobs <;>
    simp [processCompany, jobsStep, eh, eo, ej, pushHires_eq, pushJobs_eq,
          emptyOutcome, hth, htj]

theorem runCompanies_errors_nil (A : Adapters) (ts : String)
    (hH : ∀ x, ∃ l, A.hires x = .ok l) (hO : ∀ x, ∃ l, A.onboarding x = .ok l)
    (hJ : ∀ x, ∃ l, A.jobs x = .ok l) :
    ∀ cs : List Company, (runCompanies A ts cs).errors = [] := by
  intro cs
  induction cs with
  | nil => simp [runCompanies, emptyOutcome]
  | cons c rest ih =>
    rw [runCompanies]
    show (processCompany A ts c).errors ++ (runCompanies A ts rest).errors = []
    rw [processCompany_errors_nil A ts c hH hO hJ, ih]
    rfl

/-- C10: the concrete fetch adapters never throw. `HiringTracker.trackCompany`
and `JobPostingTracker.trackCompany` resolve with a list for every company and
every outcome of their internal calls (API failure, scraper failure, browser
failure, store failure); consequently a cycle run over such never-throwing
adapters reports no errors — at the orchestrator's interface an internal fetch
failure is indistinguishable from a fetch that found nothing. -/
theorem trackers_never_throw :
    (∀ (env : HireFetchEnv) (c : Company),
      ∃ hs, hiringTrackerTrackCompany env c = .ok hs) ∧
    (∀ (env : JobFetchEnv) (c : Company),
      ∃ js, jobTrackerTrackCompany env c = .ok js) ∧
    (∀ (A : Adapters) (ts : String) (s : TrackerState),
      (∀ x, ∃ l, A.hires x = .ok l) → (∀ x, ∃ l, A.onboarding x = .ok l) →
      (∀ x, ∃ l, A.jobs x = .ok l) →
      ∃ r, (runTrackingCycle A ts none s).1.result = .ok r ∧ r.errors = []) := by
  refine ⟨?_, ?_, ?_⟩
  · intro env c
    unfold hiringTrackerTrackCompany
    by_cases hth : c.trackHiring
    · simp only [hth, Bool.not_true, Bool.false_eq_true, if_false]
      cases env.searchedHires with
      | error e => exact ⟨[], rfl⟩
      | ok raw =>
        cases env.existingHires with
        | error e => exact ⟨[], rfl⟩
        | ok ex => exact ⟨_, rfl⟩
    · simp only [Bool.not_eq_true] at hth
      simp [hth]
  · intro env c
    unfold jobTrackerTrackCompany
    by_cases htj : c.trackJobs
    · simp only [htj, Bool.not_true, Bool.false_eq_true, if_false]
      by_cases hpd : hasProblematicDomain c
      · rw [if_pos hpd]
        exact ⟨[], rfl⟩
      · rw [if_neg hpd]
        cases env.browser with
        | error e => exact ⟨[], rfl⟩
        | ok u =>
          cases env.existingJobs with
          | error e => exact ⟨[], rfl⟩
          | ok ex => exact ⟨_, rfl⟩
    · simp only [Bool.not_eq_true] at htj
      simp [htj]
  · intro A ts s hH hO hJ
    unfold runTrackingCycle
    by_cases hg : s.isTracking
    · exact ⟨emptyCycleResult, by simp [hg], rfl⟩
    · by_cases hc : s.companies.length = 0
      · exact ⟨⟨[], [], []⟩, by simp [hg, hc, emptyOutcome], rfl⟩
      · refine ⟨⟨(runCompanies A ts (sortedCompaniesCur s.companies)).newHires,
                 (runCompanies A ts (sortedCompaniesCur s.companies)).newJobs,
                 (runCompanies A ts (sortedCompaniesCur s.companies)).errors⟩,
                by simp [hg, hc], ?_⟩
        exact runCompanies_errors_nil A ts hH hO hJ _

/-- Witness for C10: with every internal call failing, both trackers still
resolve, and a cycle over them reports an empty error list. -/
theorem trackers_never_throw_witness :
    (∃ hs, hiringTrackerTrackCompany downEnvH betssonCo = .ok hs) ∧
    (∃ js, jobTrackerTrackCompany downEnvJ betssonCo = .ok js) ∧
    (∃ r, (runTrackingCycle downAdapters "2024-12-01T00:00:00Z" none
      ⟨[betssonCo], false⟩).1.result = .ok r ∧ r.errors = []) := by
  obtain ⟨t1, t2, t3⟩ := trackers_never_throw
  exact ⟨t1 downEnvH betssonCo, t2 downEnvJ betssonCo,
         t3 downAdapters "2024-12-01T00:00:00Z" ⟨[betssonCo], false⟩
           (fun x => t1 downEnvH x) (fun x => ⟨[], rfl⟩) (fun x => t2 downEnvJ x)⟩

end GamingTracker
